import Mathlib

/-!
Verification development for the `mvm` batch-submitter utilities:
`packages/batch-submitter/src/utils/mpc-client.ts` and
`packages/batch-submitter/src/utils/tx-submission.ts`.

The TypeScript sources are shallowly embedded below.  HTTP transport is
abstracted as the response body handed to each operation; JavaScript
values appearing in parsed responses are modelled by `JValue`, and the
body text handed to `eval` is classified by `Body` according to how the
JavaScript evaluator treats it.
-/

/-- A JavaScript value, as far as the MPC client inspects one:
`undefined`, `null`, booleans, numbers, strings, arrays and objects
(an object is a list of named fields). -/
inductive JValue : Type where
  | undefined : JValue
  | null : JValue
  | bool (b : Bool) : JValue
  | num (n : Int) : JValue
  | str (s : String) : JValue
  | arr (xs : List JValue) : JValue
  | obj (fields : List (String × JValue)) : JValue

/-- JavaScript truthiness: `undefined`, `null`, `false`, `0` and `""`
are falsy, every other value is truthy. -/
def JValue.truthy : JValue → Bool
  | .undefined => false
  | .null => false
  | .bool b => b
  | .num n => n != 0
  | .str s => s ≠ ""
  | .arr _ => true
  | .obj _ => true

/-- Field lookup on an object's field list (first match wins, as in a
JavaScript object literal read left to right the last duplicate wins;
the client never builds duplicates, so first-match is adequate). -/
def JValue.findField : List (String × JValue) → String → Option JValue
  | [], _ => none
  | (k, v) :: rest, key => if k = key then some v else JValue.findField rest key

/-- Property access `v.key` on a value that is known to be neither
`null` nor `undefined`: objects yield the field or `undefined`,
primitives and arrays yield `undefined` (the client reads no array or
primitive properties). -/
def JValue.getPropD (v : JValue) (key : String) : JValue :=
  match v with
  | .obj fields => (JValue.findField fields key).getD .undefined
  | _ => .undefined

/-- Property access `v.key` as JavaScript performs it: a `TypeError`
is thrown when the base value is `null` or `undefined`. -/
def JValue.getProp (v : JValue) (key : String) : Except String JValue :=
  match v with
  | .undefined => .error "TypeError"
  | .null => .error "TypeError"
  | _ => .ok (JValue.getPropD v key)

/-- An HTTP response body, classified by how `eval('(' + body + ')')`
treats it:
* `empty` — the empty string (falsy, caught by the `if (!resp)` guard);
* `jsonVal v` — a well-formed JSON text denoting `v` (also a valid
  JavaScript expression evaluating to `v`);
* `jsExpr v` — a valid JavaScript expression that is NOT JSON (for
  example `1+1` or an object literal with unquoted keys), which the
  evaluator executes, producing `v`;
* `malformed` — text that is not a valid JavaScript expression, on
  which `eval` throws a `SyntaxError`. -/
inductive Body : Type where
  | empty : Body
  | jsonVal (v : JValue) : Body
  | jsExpr (v : JValue) : Body
  | malformed : Body

/-- Behaviour of `eval('(' + body + ')')` as the source performs it: any valid
JavaScript expression — JSON or not — is executed and yields its value;
invalid text throws a `SyntaxError`. -/
def evalParen : Body → Except String JValue
  | .empty => .error "SyntaxError"
  | .jsonVal v => .ok v
  | .jsExpr v => .ok v
  | .malformed => .error "SyntaxError"

/-- Strict JSON parsing, as the specification demands instead of
`eval`: only a well-formed JSON body yields a value, everything else is
an absent result and nothing is ever executed. -/
def strictJsonParse : Body → Option JValue
  | .jsonVal v => some v
  | _ => none

/-- Whether the body is the empty string, i.e. falsy under the
source's `if (!resp)` guard. -/
def Body.isEmpty : Body → Bool
  | .empty => true
  | _ => false

/-- Embedding of `MpcClient.getLatestMpc`, given the response body: empty body
yields `null`; otherwise the body goes through `eval('(' + resp + ')')`
and `obj.result` is returned when `obj.result && obj.result.mpc_address`
holds, else `null`.  `Except.error` models an escaping JavaScript
exception, `Except.ok none` models the `null` return. -/
def getLatestMpc (resp : Body) : Except String (Option JValue) :=
  if resp.isEmpty then .ok none
  else
    match evalParen resp with
    | .error e => .error e
    | .ok obj =>
      match obj.getProp "result" with
      | .error e => .error e
      | .ok r =>
        if r.truthy then
          if (r.getPropD "mpc_address").truthy then .ok (some r) else .ok none
        else .ok none

/-- Embedding of `MpcClient.proposeMpcSign`, given the response body: empty body
yields `null`; otherwise the body is `eval`uated and the object is
returned unless its `error` field is truthy, in which case `null`. -/
def proposeMpcSign (resp : Body) : Except String (Option JValue) :=
  if resp.isEmpty then .ok none
  else
    match evalParen resp with
    | .error e => .error e
    | .ok obj =>
      match obj.getProp "error" with
      | .error e => .error e
      | .ok errField =>
        if errField.truthy then .ok none else .ok (some obj)

/-- Embedding of `MpcClient.getMpcSign`, given the response body: empty body yields
`''`; otherwise the body is `eval`uated, a truthy `error` field yields
`''`, and `obj.result.signed_tx` is returned when
`obj.result && obj.result.signed_tx` holds, else `''`. -/
def getMpcSign (resp : Body) : Except String JValue :=
  if resp.isEmpty then .ok (.str "")
  else
    match evalParen resp with
    | .error e => .error e
    | .ok obj =>
      match obj.getProp "error" with
      | .error e => .error e
      | .ok errField =>
        if errField.truthy then .ok (.str "")
        else
          let r := obj.getPropD "result"
          if r.truthy then
            if (r.getPropD "signed_tx").truthy then .ok (r.getPropD "signed_tx")
            else .ok (.str "")
          else .ok (.str "")

/-- Outcome of `getMpcSignWithTimeout`: the promise either resolves
with a value at some time (milliseconds after invocation) or rejects
with a transport error at some time. -/
inductive PollOutcome : Type where
  | resolved (time : Nat) (value : String) : PollOutcome
  | rejected (time : Nat) (err : String) : PollOutcome
deriving DecidableEq, Repr

/-- The `setInterval` polling loop of `getMpcSignWithTimeout`, with
each poll modelled as instantaneous; `sign k` is the outcome of the
`k`-th call to `getMpcSign` (`k = 1, 2, ...`), either a signed-tx
string (`""` when none is available yet) or a transport error.  The
`k`-th callback of `setInterval` fires at time `k * interval`.  On a
transport error the interval is cleared and the promise rejects; on a
truthy (non-empty) signature, or once `maxTimeout` has elapsed, the
interval is cleared and the promise resolves with the last value.
`fuel` bounds the recursion; `none` means the loop is still running
after `fuel` ticks. -/
def pollAux (sign : Nat → Except String String) (maxTimeout interval : Nat) :
    Nat → Nat → Option PollOutcome
  | 0, _ => none
  | fuel + 1, k =>
    match sign k with
    | .error e => some (.rejected (k * interval) e)
    | .ok s =>
      if s ≠ "" ∨ maxTimeout ≤ k * interval then some (.resolved (k * interval) s)
      else pollAux sign maxTimeout interval fuel (k + 1)

/-- Embedding of `MpcClient.getMpcSignWithTimeout(id, maxTimeout, interval)`: run
the polling loop from the first `setInterval` callback (tick `k = 1`,
at time `interval`).  The fuel `maxTimeout / interval + 1` covers every
tick up to and including the first one at or past `maxTimeout`, so for
`interval > 0` the loop always produces an outcome. -/
def getMpcSignWithTimeout (sign : Nat → Except String String)
    (maxTimeout interval : Nat) : Option PollOutcome :=
  pollAux sign maxTimeout interval (maxTimeout / interval + 1) 1

/-- The time (milliseconds after invocation) at which the promise
settled, for either outcome. -/
def PollOutcome.time : PollOutcome → Nat
  | .resolved t _ => t
  | .rejected t _ => t

/-- Embedding of `MpcClient.removeHexLeadingZero(hex, keepOneZero = false)`: strip a
`0x` prefix, drop leading `'0'` characters (`replace(/^0+/, '')`),
restore a single `'0'` when the result is empty and `keepOneZero` is
set, and put the `0x` prefix back when the input carried one.  A
JavaScript string is modelled by its character sequence
(`String.data`). -/
def removeHexLeadingZero (hex : String) (keepOneZero : Bool := false) : String :=
  let pre := ['0', 'x'].isPrefixOf hex.data
  let t1 := if pre then hex.data.drop 2 else hex.data
  let t2 := t1.dropWhile (· == '0')
  let t3 := if t2.length == 0 && keepOneZero then ['0'] else t2
  String.mk (if pre then '0' :: 'x' :: t3 else t3)

/-- The base64 alphabet position of a character, or `none` for a
character outside the alphabet (including `'='`).  This is the lookup
used by Node's `Buffer.from(s, 'base64')`, which silently skips
characters outside the alphabet. -/
def charToSextet (c : Char) : Option Nat :=
  let n := c.toNat
  if 65 ≤ n ∧ n ≤ 90 then some (n - 65)
  else if 97 ≤ n ∧ n ≤ 122 then some (n - 97 + 26)
  else if 48 ≤ n ∧ n ≤ 57 then some (n - 48 + 52)
  else if n = 43 then some 62
  else if n = 47 then some 63
  else none

/-- The base64 alphabet character for a sextet value (`n < 64`). -/
def sextetToChar (n : Nat) : Char :=
  if n < 26 then Char.ofNat (65 + n)
  else if n < 52 then Char.ofNat (97 + (n - 26))
  else if n < 62 then Char.ofNat (48 + (n - 52))
  else if n = 62 then Char.ofNat 43
  else Char.ofNat 47

/-- Grouping of 6-bit values back into bytes, as Node's base64 decoder
performs it on the sextet stream that survives the alphabet filter: a
full group of four sextets yields three bytes, a trailing group of
three yields two bytes, of two yields one byte, and a lone trailing
sextet is dropped. -/
def decodeSextets : List Nat → List Nat
  | w :: x :: y :: z :: rest =>
    (w * 4 + x / 16) :: (x % 16 * 16 + y / 4) :: (y % 4 * 64 + z) :: decodeSextets rest
  | [w, x, y] => [w * 4 + x / 16, x % 16 * 16 + y / 4]
  | [w, x] => [w * 4 + x / 16]
  | [_] => []
  | [] => []

/-- Decoding of `Buffer.from(s, 'base64')` as Node implements it: characters
outside the base64 alphabet (including padding `'='`) are skipped, the
surviving sextets are regrouped into bytes. -/
def b64decode (s : String) : List Nat :=
  decodeSextets (s.data.filterMap charToSextet)

/-- A lowercase hexadecimal digit character for `n < 16`. -/
def hexDigitChar (n : Nat) : Char :=
  if n < 10 then Char.ofNat (48 + n) else Char.ofNat (97 + (n - 10))

/-- Hex rendering `buffer.toString('hex')`: two lowercase hexadecimal digits per
byte. -/
def hexEncodeChars : List Nat → List Char
  | [] => []
  | b :: rest => hexDigitChar (b / 16) :: hexDigitChar (b % 16) :: hexEncodeChars rest

/-- Embedding of `MpcClient.base64ToHex(base64String)`: decode base64 to bytes with
`Buffer.from(base64String, 'base64')` and render them as a
`0x`-prefixed lowercase hex string. -/
def base64ToHex (base64String : String) : String :=
  "0x" ++ String.mk (hexEncodeChars (b64decode base64String))

/-- Standard (RFC 4648) base64 encoding of a byte list, with `'='`
padding; the reference encoding the round-trip property is stated
against. -/
def encodeB64Chars : List Nat → List Char
  | [] => []
  | [a] => [sextetToChar (a / 4), sextetToChar (a % 4 * 16), '=', '=']
  | [a, b] =>
    [sextetToChar (a / 4), sextetToChar (a % 4 * 16 + b / 16), sextetToChar (b % 16 * 4), '=']
  | a :: b :: c :: rest =>
    sextetToChar (a / 4) :: sextetToChar (a % 4 * 16 + b / 16) ::
      sextetToChar (b % 16 * 4 + c / 64) :: sextetToChar (c % 64) :: encodeB64Chars rest

/-- Standard base64 encoding of a byte sequence as a string. -/
def base64Encode (bytes : List (Fin 256)) : String :=
  String.mk (encodeB64Chars (bytes.map Fin.val))

/-- Whether a character is a lowercase hexadecimal digit. -/
def isLowerHexDigit (c : Char) : Bool :=
  (48 ≤ c.toNat && c.toNat ≤ 57) || (97 ≤ c.toNat && c.toNat ≤ 102)

/-! ## Transaction submission (`tx-submission.ts`)

The chain provider and signer are external collaborators; they are
abstracted as deterministic functions packaged in `Signer`.  The
`ynatm` escalation engine is an external npm package, so the embedding
of the two `submit...WithYNATM` functions surfaces the arguments they
delegate to it (`YnatmCall`) together with the per-attempt send
closure they construct, which is where all the behaviour implemented
in this repository lives. -/

/-- Embedding of `ethers.PopulatedTransaction`, restricted to the fields the
submitter reads or writes (`toAddress` embeds the `to` field, whose
name is reserved in Lean). -/
structure PopulatedTransaction : Type where
  toAddress : String
  value : Nat
  data : String
  nonce : Option Nat
  gasPrice : Option Nat
deriving DecidableEq, Repr

/-- A transaction response (`signer.sendTransaction` result). -/
structure TransactionResponse : Type where
  hash : String
deriving DecidableEq, Repr

/-- A transaction receipt (`waitForTransaction` result). -/
structure TransactionReceipt : Type where
  transactionHash : String
  confirmations : Nat
deriving DecidableEq, Repr

/-- The external signer/provider pair, abstracted as deterministic
functions: the current network gas price in wei (`getGasPrice`), local
signing submission (`signer.sendTransaction`), raw submission of a
signed payload (`signer.provider.sendTransaction`) and the
confirmation wait (`provider.waitForTransaction`). -/
structure Signer : Type where
  gasPriceWei : Nat
  sendTransaction : PopulatedTransaction → TransactionResponse
  providerSendTransaction : String → TransactionResponse
  waitForTransaction : String → Nat → TransactionReceipt

/-- The `ResubmissionConfig` record from `tx-submission.ts`. -/
structure ResubmissionConfig : Type where
  resubmissionTimeout : Nat
  minGasPriceInGwei : Nat
  maxGasPriceInGwei : Nat
  gasRetryIncrement : Nat
deriving DecidableEq, Repr

/-- Hooks record `TxSubmissionHooks`; each hook is modelled as returning the list
of observable events it emits (a no-op hook emits none). -/
structure TxSubmissionHooks : Type where
  beforeSendTransaction : PopulatedTransaction → List String
  onTransactionResponse : TransactionResponse → List String

/-- What a single attempt hands to the network: either a populated
transaction (sign-per-attempt mode) or a raw signed payload
(pre-signed mode). -/
inductive SentPayload : Type where
  | fullTx (tx : PopulatedTransaction) : SentPayload
  | signedTx (raw : String) : SentPayload
deriving DecidableEq, Repr

/-- Observable trace events of one submission attempt: each hook call
site records the argument the hook received and what the hook emitted,
and the network send records its payload. -/
inductive TxEvent : Type where
  | beforeSend (arg : PopulatedTransaction) (emitted : List String) : TxEvent
  | sent (payload : SentPayload) : TxEvent
  | onResponse (arg : TransactionResponse) (emitted : List String) : TxEvent
deriving DecidableEq, Repr

/-- Embedding of `getGasPriceInGwei(signer)`:
`parseInt(ethers.utils.formatUnits(await signer.getGasPrice(), 'gwei'), 10)`.
`formatUnits` renders the wei amount as a decimal gwei string and
`parseInt` truncates at the decimal point, so the result is the wei
value integer-divided by `10^9`. -/
def getGasPriceInGwei (signer : Signer) : Nat :=
  signer.gasPriceWei / 10 ^ 9

/-- Modelled from the spec: `ynatm.toGwei` of the external
`@eth-optimism/ynatm` package converts a gwei amount to wei. -/
def toGwei (n : Nat) : Nat :=
  n * 10 ^ 9

/-- The argument record delegated to the external ynatm escalation
engine (`ynatm.send` / `YnatmAsync.sendAfterSign`): starting gas
price, cap, linear increment and round delay. -/
structure YnatmCall : Type where
  minGasPrice : Nat
  maxGasPrice : Nat
  gasRetryIncrement : Nat
  delay : Nat
deriving DecidableEq, Repr

/-- The `sendTxAndWaitForReceipt` closure of
`submitTransactionWithYNATM`: spread the template, attach this round's
gas price, call the `beforeSendTransaction` hook on the full
transaction, send it through the signer, call `onTransactionResponse`,
and wait for `numConfirmations` confirmations. -/
def sendTxAndWaitForReceipt (tx : PopulatedTransaction) (signer : Signer)
    (numConfirmations : Nat) (hooks : TxSubmissionHooks) (gasPrice : Nat) :
    List TxEvent × TransactionReceipt :=
  let fullTx := { tx with gasPrice := some gasPrice }
  let e1 := TxEvent.beforeSend fullTx (hooks.beforeSendTransaction fullTx)
  let txResponse := signer.sendTransaction fullTx
  let e2 := TxEvent.onResponse txResponse (hooks.onTransactionResponse txResponse)
  ([e1, .sent (.fullTx fullTx), e2],
    signer.waitForTransaction txResponse.hash numConfirmations)

/-- The `sendTxAndWaitForReceipt` closure of
`submitSignedTransactionWithYNATM`: call the `beforeSendTransaction`
hook on the ORIGINAL template `tx`, send the externally signed payload
through the provider, call `onTransactionResponse`, and wait for
`numConfirmations` confirmations. -/
def sendSignedTxAndWaitForReceipt (tx : PopulatedTransaction) (signer : Signer)
    (numConfirmations : Nat) (hooks : TxSubmissionHooks) (signedTx : String) :
    List TxEvent × TransactionReceipt :=
  let e1 := TxEvent.beforeSend tx (hooks.beforeSendTransaction tx)
  let txResponse := signer.providerSendTransaction signedTx
  let e2 := TxEvent.onResponse txResponse (hooks.onTransactionResponse txResponse)
  ([e1, .sent (.signedTx signedTx), e2],
    signer.waitForTransaction txResponse.hash numConfirmations)

/-- Embedding of `submitTransactionWithYNATM(tx, signer, config, numConfirmations,
hooks)`: fetch the live network gas price in gwei, then delegate to
`ynatm.send` with `minGasPrice = toGwei(that live price)`,
`maxGasPrice = toGwei(config.maxGasPriceInGwei)`, the linear increment
and the round delay, handing it the sign-per-attempt closure.  The
embedding returns the delegated argument record and the closure. -/
def submitTransactionWithYNATM (tx : PopulatedTransaction) (signer : Signer)
    (config : ResubmissionConfig) (numConfirmations : Nat)
    (hooks : TxSubmissionHooks) :
    YnatmCall × (Nat → List TxEvent × TransactionReceipt) :=
  let minGasPrice := getGasPriceInGwei signer
  ({ minGasPrice := toGwei minGasPrice
     maxGasPrice := toGwei config.maxGasPriceInGwei
     gasRetryIncrement := config.gasRetryIncrement
     delay := config.resubmissionTimeout },
   sendTxAndWaitForReceipt tx signer numConfirmations hooks)

/-- Embedding of `submitSignedTransactionWithYNATM(tx, signFunction, signer,
config, numConfirmations, hooks)`: fetch the live network gas price in
gwei, then delegate to `YnatmAsync.sendAfterSign` with the same
argument record, the caller's `signFunction` and the pre-signed send
closure.  The embedding returns the delegated argument record, the
forwarded sign function and the closure. -/
def submitSignedTransactionWithYNATM (tx : PopulatedTransaction)
    (signFunction : Nat → String) (signer : Signer)
    (config : ResubmissionConfig) (numConfirmations : Nat)
    (hooks : TxSubmissionHooks) :
    YnatmCall × (Nat → String) × (String → List TxEvent × TransactionReceipt) :=
  let minGasPrice := getGasPriceInGwei signer
  ({ minGasPrice := toGwei minGasPrice
     maxGasPrice := toGwei config.maxGasPriceInGwei
     gasRetryIncrement := config.gasRetryIncrement
     delay := config.resubmissionTimeout },
   signFunction,
   sendSignedTxAndWaitForReceipt tx signer numConfirmations hooks)

/-- The default hooks both facade operations substitute when the
caller supplies none: `() => undefined` for both callbacks, i.e. hooks
that emit nothing. -/
def noopHooks : TxSubmissionHooks :=
  { beforeSendTransaction := fun _ => []
    onTransactionResponse := fun _ => [] }

/-- The `YnatmTransactionSubmitter` facade: constructor-fixed signer,
`ResubmissionConfig` and confirmation count. -/
structure YnatmTransactionSubmitter : Type where
  signer : Signer
  ynatmConfig : ResubmissionConfig
  numConfirmations : Nat

/-- Embedding of `YnatmTransactionSubmitter.submitTransaction(tx, hooks?)`:
substitute the no-op hooks when none are given, then delegate to
`submitTransactionWithYNATM` with the constructor-fixed state. -/
def YnatmTransactionSubmitter.submitTransaction
    (self : YnatmTransactionSubmitter) (tx : PopulatedTransaction)
    (hooks : Option TxSubmissionHooks) :
    YnatmCall × (Nat → List TxEvent × TransactionReceipt) :=
  let hooks := match hooks with
    | none => noopHooks
    | some h => h
  submitTransactionWithYNATM tx self.signer self.ynatmConfig
    self.numConfirmations hooks

/-- Embedding of `YnatmTransactionSubmitter.submitSignedTransaction(tx,
signFunction, hooks?)`: substitute the no-op hooks when none are
given, then delegate to `submitSignedTransactionWithYNATM` with the
constructor-fixed state. -/
def YnatmTransactionSubmitter.submitSignedTransaction
    (self : YnatmTransactionSubmitter) (tx : PopulatedTransaction)
    (signFunction : Nat → String) (hooks : Option TxSubmissionHooks) :
    YnatmCall × (Nat → String) × (String → List TxEvent × TransactionReceipt) :=
  let hooks := match hooks with
    | none => noopHooks
    | some h => h
  submitSignedTransactionWithYNATM tx signFunction self.signer self.ynatmConfig
    self.numConfirmations hooks

/-! ## Example fixtures -/

/-- A concrete transaction template. -/
def exampleTx : PopulatedTransaction :=
  { toAddress := "0xdest", value := 0, data := "0xdata", nonce := none, gasPrice := none }

/-- A concrete signer whose network reports a 5 gwei gas price. -/
def exampleSigner : Signer :=
  { gasPriceWei := 5 * 10 ^ 9
    sendTransaction := fun _ => { hash := "0xhash" }
    providerSendTransaction := fun _ => { hash := "0xhash" }
    waitForTransaction := fun h n => { transactionHash := h, confirmations := n } }

/-- A concrete configuration whose gas-price floor is 100 gwei. -/
def exampleConfig : ResubmissionConfig :=
  { resubmissionTimeout := 1000, minGasPriceInGwei := 100, maxGasPriceInGwei := 200,
    gasRetryIncrement := 5 }

/-! ## Polling-loop lemmas -/

/-- Unfolding the polling loop at a tick whose poll reports a
transport error. -/
theorem pollAux_eq_error {sign : Nat → Except String String} {m i k : Nat} {e : String}
    (f : Nat) (hs : sign k = Except.error e) :
    pollAux sign m i (f + 1) k = some (.rejected (k * i) e) := by
  rw [pollAux, hs]

/-- Unfolding the polling loop at a tick whose poll succeeds. -/
theorem pollAux_eq_ok {sign : Nat → Except String String} {m i k : Nat} {s : String}
    (f : Nat) (hs : sign k = Except.ok s) :
    pollAux sign m i (f + 1) k =
      if s ≠ "" ∨ m ≤ k * i then some (.resolved (k * i) s)
      else pollAux sign m i f (k + 1) := by
  rw [pollAux, hs]

/-- The polling loop never settles before the tick it starts at. -/
theorem pollAux_time_lb (sign : Nat → Except String String) (m i : Nat) :
    ∀ fuel k o, pollAux sign m i fuel k = some o → k * i ≤ o.time := by
  intro fuel
  induction fuel with
  | zero => intro k o h; simp [pollAux] at h
  | succ f ih =>
    intro k o h
    cases hs : sign k with
    | error e =>
      rw [pollAux_eq_error f hs] at h
      simp at h
      subst h
      simp [PollOutcome.time]
    | ok s =>
      rw [pollAux_eq_ok f hs] at h
      by_cases hc : s ≠ "" ∨ m ≤ k * i
      · rw [if_pos hc] at h
        simp at h
        subst h
        simp [PollOutcome.time]
      · rw [if_neg hc] at h
        have := ih (k + 1) o h
        calc k * i ≤ (k + 1) * i := Nat.mul_le_mul_right i (Nat.le_succ k)
          _ ≤ o.time := this

/-- When every poll returns the empty signature, the loop resolves
with `""` at the first tick at or past `maxTimeout`, hence within one
interval past `maxTimeout`. -/
theorem pollAux_all_empty (sign : Nat → Except String String) (m i : Nat)
    (hall : ∀ j, sign j = Except.ok "") :
    ∀ fuel k, 1 ≤ k → (k - 1) * i ≤ m → m ≤ (k + fuel - 1) * i → 1 ≤ fuel →
    ∃ t, pollAux sign m i fuel k = some (.resolved t "") ∧ t ≤ m + i := by
  intro fuel
  induction fuel with
  | zero => intro k _ _ _ hf; exact absurd hf (by omega)
  | succ f ih =>
    intro k hk hinv hcov _
    rw [pollAux_eq_ok f (hall k)]
    by_cases hm : m ≤ k * i
    · rw [if_pos (Or.inr hm)]
      refine ⟨k * i, rfl, ?_⟩
      have hk' : k - 1 + 1 = k := by omega
      calc k * i = (k - 1 + 1) * i := by rw [hk']
        _ = (k - 1) * i + i := by rw [Nat.add_mul, Nat.one_mul]
        _ ≤ m + i := Nat.add_le_add_right hinv i
    · have hlt : k * i < m := Nat.lt_of_not_le hm
      rw [if_neg (by simp [hm])]
      have hf1 : 1 ≤ f := by
        rcases Nat.eq_zero_or_pos f with hf0 | hf0
        · subst hf0
          have he : k + 1 - 1 = k := by omega
          rw [he] at hcov
          exact absurd hcov hm
        · exact hf0
      have hcov' : m ≤ (k + 1 + f - 1) * i := by
        have he : k + 1 + f - 1 = k + (f + 1) - 1 := by omega
        rw [he]
        exact hcov
      exact ih (k + 1) (by omega) (by simpa using Nat.le_of_lt hlt) hcov' hf1

/-- When the first non-empty signature appears at tick `k₀` before the
deadline, the loop resolves with it at time `k₀ * interval`. -/
theorem pollAux_first_signed (sign : Nat → Except String String) (m i k₀ : Nat) (s : String)
    (hs : sign k₀ = Except.ok s) (hne : s ≠ "") (htime : (k₀ - 1) * i < m) :
    ∀ fuel k, 1 ≤ k → k ≤ k₀ → (∀ j, k ≤ j → j < k₀ → sign j = Except.ok "") →
    k₀ - k < fuel →
    pollAux sign m i fuel k = some (.resolved (k₀ * i) s) := by
  intro fuel
  induction fuel with
  | zero => intro k _ _ _ hf; exact absurd hf (by omega)
  | succ f ih =>
    intro k hk hkk hempty hf
    rcases Nat.eq_or_lt_of_le hkk with heq | hlt
    · subst heq
      rw [pollAux_eq_ok f hs, if_pos (Or.inl hne)]
    · rw [pollAux_eq_ok f (hempty k (le_refl k) hlt)]
      have hki : k * i < m := by
        calc k * i ≤ (k₀ - 1) * i := Nat.mul_le_mul_right i (by omega)
          _ < m := htime
      rw [if_neg (by simp [Nat.not_le.mpr hki])]
      exact ih (k + 1) (by omega) (by omega) (fun j hj1 hj2 => hempty j (by omega) hj2) (by omega)

/-- When the poll at tick `k₀` reports a transport error and every
earlier tick returned the empty signature before the deadline, the
loop rejects with that error at time `k₀ * interval`. -/
theorem pollAux_error (sign : Nat → Except String String) (m i k₀ : Nat) (e : String)
    (hs : sign k₀ = Except.error e) (htime : (k₀ - 1) * i < m) :
    ∀ fuel k, 1 ≤ k → k ≤ k₀ → (∀ j, k ≤ j → j < k₀ → sign j = Except.ok "") →
    k₀ - k < fuel →
    pollAux sign m i fuel k = some (.rejected (k₀ * i) e) := by
  intro fuel
  induction fuel with
  | zero => intro k _ _ _ hf; exact absurd hf (by omega)
  | succ f ih =>
    intro k hk hkk hempty hf
    rcases Nat.eq_or_lt_of_le hkk with heq | hlt
    · subst heq
      rw [pollAux_eq_error f hs]
    · rw [pollAux_eq_ok f (hempty k (le_refl k) hlt)]
      have hki : k * i < m := by
        calc k * i ≤ (k₀ - 1) * i := Nat.mul_le_mul_right i (by omega)
          _ < m := htime
      rw [if_neg (by simp [Nat.not_le.mpr hki])]
      exact ih (k + 1) (by omega) (by omega) (fun j hj1 hj2 => hempty j (by omega) hj2) (by omega)

/-- Whether the poll settled by resolving with the empty signature no
later than `bound` after invocation. -/
def resolvedEmptyBy (r : Option PollOutcome) (bound : Nat) : Bool :=
  match r with
  | some (.resolved t s) => decide (s = "" ∧ t ≤ bound)
  | _ => false

/-! ## Base64 lemmas -/

/-- The alphabet lookup inverts the alphabet table on sextet values. -/
theorem charToSextet_sextetToChar : ∀ n, n < 64 → charToSextet (sextetToChar n) = some n := by
  decide

/-- Every value the alphabet lookup produces is a sextet. -/
theorem charToSextet_lt {c : Char} {x : Nat} (h : charToSextet c = some x) : x < 64 := by
  unfold charToSextet at h
  dsimp only at h
  split_ifs at h <;> simp_all <;> omega

/-- The padding character is outside the alphabet and is skipped. -/
theorem charToSextet_pad : charToSextet '=' = none := by decide

/-- Regrouping sextets yields bytes. -/
theorem decodeSextets_lt : ∀ (l : List Nat), (∀ x ∈ l, x < 64) →
    ∀ b ∈ decodeSextets l, b < 256
  | [], _, b, hb => by simp [decodeSextets] at hb
  | [w], _, b, hb => by simp [decodeSextets] at hb
  | [w, x], h, b, hb => by
    simp [decodeSextets] at hb
    have hw := h w (by simp)
    have hx := h x (by simp)
    omega
  | [w, x, y], h, b, hb => by
    simp [decodeSextets] at hb
    have hw := h w (by simp)
    have hx := h x (by simp)
    have hy := h y (by simp)
    rcases hb with hb | hb <;> omega
  | w :: x :: y :: z :: r1 :: rest, h, b, hb => by
    rw [decodeSextets] at hb
    simp only [List.mem_cons] at hb
    have hw := h w (by simp)
    have hx := h x (by simp)
    have hy := h y (by simp)
    have hz := h z (by simp)
    rcases hb with hb | hb | hb | hb
    · omega
    · omega
    · omega
    · exact decodeSextets_lt (r1 :: rest) (fun a ha => h a (by simp [ha])) b hb
  | [w, x, y, z], h, b, hb => by
    rw [decodeSextets] at hb
    simp only [List.mem_cons] at hb
    have hw := h w (by simp)
    have hx := h x (by simp)
    have hy := h y (by simp)
    have hz := h z (by simp)
    rcases hb with hb | hb | hb | hb
    · omega
    · omega
    · omega
    · simp [decodeSextets] at hb

/-- The forgiving decoder inverts the standard encoder on byte lists:
the padding characters are skipped, the alphabet characters map back
to their sextets, and regrouping recovers the original bytes. -/
theorem decode_encode : ∀ (bytes : List Nat), (∀ b ∈ bytes, b < 256) →
    decodeSextets ((encodeB64Chars bytes).filterMap charToSextet) = bytes
  | [], _ => rfl
  | [a], h => by
    have ha : a < 256 := h a (by simp)
    have h1 := charToSextet_sextetToChar (a / 4) (by omega)
    have h2 := charToSextet_sextetToChar (a % 4 * 16) (by omega)
    simp [encodeB64Chars, List.filterMap_cons, h1, h2, charToSextet_pad, decodeSextets]
    omega
  | [a, b], h => by
    have ha : a < 256 := h a (by simp)
    have hb : b < 256 := h b (by simp)
    have h1 := charToSextet_sextetToChar (a / 4) (by omega)
    have h2 := charToSextet_sextetToChar (a % 4 * 16 + b / 16) (by omega)
    have h3 := charToSextet_sextetToChar (b % 16 * 4) (by omega)
    simp [encodeB64Chars, List.filterMap_cons, h1, h2, h3, charToSextet_pad, decodeSextets]
    constructor <;> omega
  | a :: b :: c :: rest, h => by
    have ha : a < 256 := h a (by simp)
    have hb : b < 256 := h b (by simp)
    have hc : c < 256 := h c (by simp)
    have h1 := charToSextet_sextetToChar (a / 4) (by omega)
    have h2 := charToSextet_sextetToChar (a % 4 * 16 + b / 16) (by omega)
    have h3 := charToSextet_sextetToChar (b % 16 * 4 + c / 64) (by omega)
    have h4 := charToSextet_sextetToChar (c % 64) (by omega)
    have ih := decode_encode rest (fun x hx => h x (by simp [hx]))
    simp [encodeB64Chars, List.filterMap_cons, h1, h2, h3, h4, decodeSextets, ih]
    refine ⟨by omega, by omega, by omega⟩

/-- Hex digit characters of values below 16 are lowercase hex digits. -/
theorem hexDigitChar_isLower : ∀ n, n < 16 → isLowerHexDigit (hexDigitChar n) = true := by
  decide

/-- The hex rendering of a byte list consists of lowercase hex
digits. -/
theorem hexEncodeChars_isLower : ∀ (bl : List Nat), (∀ b ∈ bl, b < 256) →
    ∀ c ∈ hexEncodeChars bl, isLowerHexDigit c = true
  | [], _, c, hc => by simp [hexEncodeChars] at hc
  | b :: rest, h, c, hc => by
    have hb := h b (by simp)
    rw [hexEncodeChars] at hc
    simp only [List.mem_cons] at hc
    rcases hc with hc | hc | hc
    · subst hc; exact hexDigitChar_isLower (b / 16) (by omega)
    · subst hc; exact hexDigitChar_isLower (b % 16) (by omega)
    · exact hexEncodeChars_isLower rest (fun x hx => h x (by simp [hx])) c hc

/-- Dropping leading `'0'` characters never produces a list that
starts with `'0'`, so `0x` is not a prefix of the result. -/
theorem isPrefixOf_0x_dropWhile (l : List Char) :
    ['0', 'x'].isPrefixOf (l.dropWhile (· == '0')) = false := by
  induction l with
  | nil => rfl
  | cons c cs ih =>
    rw [List.dropWhile_cons]
    cases hcb : (c == '0') with
    | true => simpa [hcb] using ih
    | false =>
      have hne : ('0' == c) = false := by
        rw [beq_eq_false_iff_ne] at hcb ⊢
        exact fun he => hcb he.symm
      simp [hcb, List.isPrefixOf, hne]

/-! ## Claim theorems -/

/-- Claim C1 (settled against the code, which contradicts it): the MPC
client does NOT parse response bodies by strict JSON parsing — it
hands them to `eval('(' + resp + ')')`.  A malformed non-JSON body
makes `getLatestMpc` raise a `SyntaxError` instead of returning `null`,
and a valid JavaScript expression that is not JSON is executed and its
value accepted, while strict JSON parsing would treat it as absent. -/
theorem mpc_responses_are_code_evaluated :
    getLatestMpc Body.malformed = Except.error "SyntaxError" ∧
    getLatestMpc
        (Body.jsExpr (JValue.obj [("result", JValue.obj [("mpc_address", JValue.str "0xaddr")])])) =
      Except.ok (some (JValue.obj [("mpc_address", JValue.str "0xaddr")])) ∧
    strictJsonParse
        (Body.jsExpr (JValue.obj [("result", JValue.obj [("mpc_address", JValue.str "0xaddr")])])) =
      none :=
  ⟨rfl, rfl, rfl⟩

/-- Claim C5 (settled against the code, which contradicts its
never-throws part): on a malformed non-JSON body every single-shot MPC
operation raises the `SyntaxError` escaping from `eval` instead of
returning an absent value; the absent-value behaviour does hold for
empty bodies. -/
theorem mpc_ops_raise_on_malformed :
    getMpcSign Body.malformed = Except.error "SyntaxError" ∧
    proposeMpcSign Body.malformed = Except.error "SyntaxError" ∧
    getLatestMpc Body.empty = Except.ok none ∧
    proposeMpcSign Body.empty = Except.ok none ∧
    getMpcSign Body.empty = Except.ok (JValue.str "") :=
  ⟨rfl, rfl, rfl, rfl, rfl⟩

/-- Claim C2, counterexample: with the network reporting 5 gwei and a
configured floor of 100 gwei, both resubmission entry points hand the
escalation engine a starting gas price of 5 gwei (the live network
price), not the configured `minGasPriceInGwei` floor of 100 gwei that
the claim requires. -/
theorem submit_gas_floor_counterexample :
    exampleConfig.minGasPriceInGwei = 100 ∧
    getGasPriceInGwei exampleSigner = 5 ∧
    (submitTransactionWithYNATM exampleTx exampleSigner exampleConfig 1 noopHooks).1.minGasPrice =
      toGwei 5 ∧
    (submitSignedTransactionWithYNATM exampleTx (fun _ => "0xsigned") exampleSigner exampleConfig
        1 noopHooks).1.minGasPrice = toGwei 5 ∧
    toGwei 5 ≠ toGwei exampleConfig.minGasPriceInGwei :=
  ⟨rfl, by decide, rfl, rfl, by decide⟩

/-- Claim C2, amended: for every resubmission call in either mode, the
starting gas price handed to the escalation engine is always the live
network gas price (truncated to whole gwei and converted back to wei);
the configured `minGasPriceInGwei` is never consulted, so the whole
delegated argument record is independent of it. -/
theorem submit_minGasPrice_from_network (tx : PopulatedTransaction) (signer : Signer)
    (config : ResubmissionConfig) (n : Nat) (hooks : TxSubmissionHooks)
    (signFn : Nat → String) :
    (submitTransactionWithYNATM tx signer config n hooks).1.minGasPrice =
      toGwei (signer.gasPriceWei / 10 ^ 9) ∧
    (submitSignedTransactionWithYNATM tx signFn signer config n hooks).1.minGasPrice =
      toGwei (signer.gasPriceWei / 10 ^ 9) ∧
    (∀ m, (submitTransactionWithYNATM tx signer { config with minGasPriceInGwei := m } n
        hooks).1 = (submitTransactionWithYNATM tx signer config n hooks).1) ∧
    (∀ m, (submitSignedTransactionWithYNATM tx signFn signer
        { config with minGasPriceInGwei := m } n hooks).1 =
      (submitSignedTransactionWithYNATM tx signFn signer config n hooks).1) :=
  ⟨rfl, rfl, fun _ => rfl, fun _ => rfl⟩

/-- Claim C3, counterexample: against a server whose signature is
available from the very first poll, `getMpcSignWithTimeout` with a
5 ms interval resolves at time 5, one full interval after invocation —
not at time 0, as polling that starts immediately would give. -/
theorem getMpcSignWithTimeout_first_poll_delayed :
    getMpcSignWithTimeout (fun _ => Except.ok "0xsigned") 100 5 =
      some (PollOutcome.resolved 5 "0xsigned") ∧
    getMpcSignWithTimeout (fun _ => Except.ok "0xsigned") 100 5 ≠
      some (PollOutcome.resolved 0 "0xsigned") :=
  ⟨by decide, by decide⟩

/-- Claim C3, amended: `getMpcSignWithTimeout(id, maxTimeout,
interval)` polls `getMpcSign` on a fixed interval starting one
interval after invocation; if every poll returns an empty signature it
resolves with the empty string no later than `maxTimeout` plus one
interval; as soon as some poll returns a non-empty `signed_tx` (here:
the first non-empty poll, at tick `k₀`, before the deadline) it
resolves immediately with that signature at that poll's time, without
waiting for `maxTimeout`; and no outcome is ever delivered earlier
than one interval after invocation. -/
theorem getMpcSignWithTimeout_correct (sign : Nat → Except String String) (m i : Nat)
    (hi : 0 < i) :
    ((∀ k, sign k = Except.ok "") →
      resolvedEmptyBy (getMpcSignWithTimeout sign m i) (m + i) = true) ∧
    (∀ k₀ s, 1 ≤ k₀ → sign k₀ = Except.ok s → s ≠ "" →
      (∀ k, 1 ≤ k → k < k₀ → sign k = Except.ok "") → k₀ * i ≤ m →
      getMpcSignWithTimeout sign m i = some (PollOutcome.resolved (k₀ * i) s)) ∧
    (∀ o, getMpcSignWithTimeout sign m i = some o → i ≤ o.time) := by
  refine ⟨?_, ?_, ?_⟩
  · intro hall
    have hcov : m ≤ (1 + (m / i + 1) - 1) * i := by
      have h1 : ∀ d : Nat, 1 + (d + 1) - 1 = d + 1 := fun d => by omega
      rw [h1]
      have hmod : m % i < i := Nat.mod_lt m hi
      calc m = i * (m / i) + m % i := (Nat.div_add_mod m i).symm
        _ ≤ i * (m / i) + i := Nat.add_le_add_left (Nat.le_of_lt hmod) _
        _ = (m / i + 1) * i := by ring
    obtain ⟨t, ht, hle⟩ := pollAux_all_empty sign m i hall (m / i + 1) 1 (le_refl 1)
      (by simp) hcov (Nat.succ_le_succ (Nat.zero_le _))
    unfold getMpcSignWithTimeout
    rw [ht]
    simp [resolvedEmptyBy, hle]
  · intro k₀ s hk₀ hs hne hempty hlim
    have hk0div : k₀ ≤ m / i := (Nat.le_div_iff_mul_le hi).mpr hlim
    have htime : (k₀ - 1) * i < m := by
      have h1 : (k₀ - 1) * i < k₀ * i := by
        apply Nat.mul_lt_mul_of_lt_of_le (by omega) (le_refl i) hi
      exact Nat.lt_of_lt_of_le h1 hlim
    exact pollAux_first_signed sign m i k₀ s hs hne htime (m / i + 1) 1 (le_refl 1) hk₀
      (fun j hj1 hj2 => hempty j hj1 hj2) (by omega)
  · intro o ho
    have := pollAux_time_lb sign m i (m / i + 1) 1 o ho
    simpa using this

/-- Witness for `getMpcSignWithTimeout_correct` at `maxTimeout = 10`,
`interval = 3` and a server that never returns a signature: the poll
resolves with the empty string no later than 13 ms after invocation. -/
theorem getMpcSignWithTimeout_correct_witness :
    resolvedEmptyBy (getMpcSignWithTimeout (fun _ => Except.ok "") 10 3) (10 + 3) = true :=
  (getMpcSignWithTimeout_correct (fun _ => Except.ok "") 10 3 (by decide)).1 (fun _ => rfl)

/-- Claim C4: if the poll at tick `k₀` raises a transport error while
every earlier poll returned the empty signature and the deadline has
not yet passed, the whole wait is aborted at that poll: the call
rejects with that error at that poll's time, and the outcome is
unchanged under any modification of the polls after `k₀` — no further
poll is consulted. -/
theorem transport_error_aborts_poll (sign : Nat → Except String String) (m i k₀ : Nat)
    (e : String) (hi : 0 < i) (hk : 1 ≤ k₀)
    (hbefore : ∀ k, 1 ≤ k → k < k₀ → sign k = Except.ok "")
    (htime : (k₀ - 1) * i < m) (herr : sign k₀ = Except.error e) :
    getMpcSignWithTimeout sign m i = some (PollOutcome.rejected (k₀ * i) e) ∧
    ∀ sign' : Nat → Except String String, (∀ j, j ≤ k₀ → sign' j = sign j) →
      getMpcSignWithTimeout sign' m i = some (PollOutcome.rejected (k₀ * i) e) := by
  have main : ∀ g : Nat → Except String String,
      (∀ k, 1 ≤ k → k < k₀ → g k = Except.ok "") → g k₀ = Except.error e →
      getMpcSignWithTimeout g m i = some (PollOutcome.rejected (k₀ * i) e) := by
    intro g hb he
    have hdiv : k₀ - 1 ≤ m / i := by
      apply (Nat.le_div_iff_mul_le hi).mpr
      exact Nat.le_of_lt htime
    exact pollAux_error g m i k₀ e he htime (m / i + 1) 1 (le_refl 1) hk
      (fun j hj1 hj2 => hb j hj1 hj2) (by omega)
  refine ⟨main sign hbefore herr, fun sign' hagree => ?_⟩
  exact main sign' (fun k h1 h2 => (hagree k (by omega)).trans (hbefore k h1 h2))
    ((hagree k₀ (le_refl k₀)).trans herr)

/-- Witness for `transport_error_aborts_poll` at a server whose very
first poll raises a transport error, with `maxTimeout = 10` and
`interval = 3`: the call rejects with that error at time 3. -/
theorem transport_error_aborts_poll_witness :
    getMpcSignWithTimeout (fun _ => Except.error "ECONNREFUSED") 10 3 =
      some (PollOutcome.rejected (1 * 3) "ECONNREFUSED") :=
  (transport_error_aborts_poll (fun _ => Except.error "ECONNREFUSED") 10 3 1 "ECONNREFUSED"
    (by decide) (le_refl 1)
    (fun k h1 h2 => absurd (Nat.lt_of_le_of_lt h1 h2) (Nat.lt_irrefl 1))
    (by decide) rfl).1

/-- Claim C6: `removeHexLeadingZero` restores the `0x` prefix exactly
when the input had one (the result starts with `0x` if and only if the
input does), and on the spec's examples: `"0x00"` with `keepOneZero`
gives `"0x0"`, without gives `"0x"`, and `"0x0a1"` gives `"0xa1"`. -/
theorem removeHexLeadingZero_spec :
    (∀ (hex : String) (k : Bool),
      ['0', 'x'].isPrefixOf (removeHexLeadingZero hex k).data =
        ['0', 'x'].isPrefixOf hex.data) ∧
    removeHexLeadingZero "0x00" true = "0x0" ∧
    removeHexLeadingZero "0x00" false = "0x" ∧
    removeHexLeadingZero "0x0a1" false = "0xa1" := by
  refine ⟨?_, by decide, by decide, by decide⟩
  intro hex k
  unfold removeHexLeadingZero
  cases hp : ['0', 'x'].isPrefixOf hex.data with
  | true =>
    simp only [hp, if_true]
    simp [List.isPrefixOf]
  | false =>
    simp only [hp, if_false]
    by_cases hz : ((if (false : Bool) = true then hex.data.drop 2 else hex.data).dropWhile
        (· == '0')).length == 0 && k
    · simp only [hz, if_true]
      decide
    · simp only [hz, if_false]
      simp only [Bool.false_eq_true, if_false]
      exact isPrefixOf_0x_dropWhile hex.data

/-- Claim C7: `base64ToHex` round-trips with standard base64 encoding:
for every byte sequence, encoding it to base64 and passing the result
through `base64ToHex` yields exactly `0x` followed by the lowercase
hexadecimal encoding of the same bytes. -/
theorem base64ToHex_roundtrip (bytes : List (Fin 256)) :
    base64ToHex (base64Encode bytes) =
      "0x" ++ String.mk (hexEncodeChars (bytes.map Fin.val)) := by
  unfold base64ToHex base64Encode b64decode
  rw [show (String.mk (encodeB64Chars (bytes.map Fin.val))).data
      = encodeB64Chars (bytes.map Fin.val) from rfl]
  rw [decode_encode (bytes.map Fin.val) (fun x hx => by
    rcases List.mem_map.1 hx with ⟨v, _, rfl⟩
    exact v.isLt)]

/-- Claim C9: `base64ToHex` is total and shape-correct on every input
string, malformed base64 included: it returns `0x` followed only by
lowercase hexadecimal digits, because characters outside the base64
alphabet are silently skipped during decoding. -/
theorem base64ToHex_total (s : String) :
    ∃ l, base64ToHex s = String.mk ('0' :: 'x' :: l) ∧ ∀ c ∈ l, isLowerHexDigit c = true := by
  refine ⟨hexEncodeChars (b64decode s), rfl, ?_⟩
  apply hexEncodeChars_isLower
  intro b hb
  apply decodeSextets_lt (s.data.filterMap charToSextet) ?_ b hb
  intro x hx
  rcases List.mem_filterMap.1 hx with ⟨c, _, hc⟩
  exact charToSextet_lt hc

/-- Claim C8: both facade operations delegate to the corresponding
resubmitter function with the constructor-fixed signer, configuration
and confirmation count passed through unchanged — with the caller's
hooks when supplied, and with substituted hooks when none are; the
substituted hooks are no-ops, emitting nothing. -/
theorem submitter_delegates (s : YnatmTransactionSubmitter) (tx : PopulatedTransaction)
    (signFn : Nat → String) (hooks : TxSubmissionHooks) :
    s.submitTransaction tx none =
      submitTransactionWithYNATM tx s.signer s.ynatmConfig s.numConfirmations noopHooks ∧
    s.submitTransaction tx (some hooks) =
      submitTransactionWithYNATM tx s.signer s.ynatmConfig s.numConfirmations hooks ∧
    s.submitSignedTransaction tx signFn none =
      submitSignedTransactionWithYNATM tx signFn s.signer s.ynatmConfig s.numConfirmations
        noopHooks ∧
    s.submitSignedTransaction tx signFn (some hooks) =
      submitSignedTransactionWithYNATM tx signFn s.signer s.ynatmConfig s.numConfirmations
        hooks ∧
    (∀ t, noopHooks.beforeSendTransaction t = []) ∧
    (∀ r, noopHooks.onTransactionResponse r = []) :=
  ⟨rfl, rfl, rfl, rfl, fun _ => rfl, fun _ => rfl⟩

/-- Claim C10: in sign-per-attempt mode the `beforeSendTransaction`
hook receives the transaction carrying that round's gas price, while
in pre-signed mode it receives the original template `tx` itself —
not the signed payload that is actually sent, and with no gas price
attached beyond what the template already carried. -/
theorem beforeSend_hook_arguments (tx : PopulatedTransaction) (signer : Signer)
    (config : ResubmissionConfig) (n gp : Nat) (hooks : TxSubmissionHooks)
    (signFn : Nat → String) (stx : String) :
    ((submitTransactionWithYNATM tx signer config n hooks).2 gp).1.head? =
      some (TxEvent.beforeSend { tx with gasPrice := some gp }
        (hooks.beforeSendTransaction { tx with gasPrice := some gp })) ∧
    ((submitSignedTransactionWithYNATM tx signFn signer config n hooks).2.2 stx).1.head? =
      some (TxEvent.beforeSend tx (hooks.beforeSendTransaction tx)) :=
  ⟨rfl, rfl⟩
